import Mathlib

/-!
Shallow embedding of the core data model of `tik_data.py` (candidate registry and
classifier, polling-station tables, tree aggregation, serialization) together with
theorems settling the specification claims.

Modelling conventions:
* Python strings are Lean `String`s; character-level operations work on `List Char`.
* Python `str.lower` is modelled by `pyLowerChar`, covering ASCII and the Cyrillic
  repertoire appearing in the program (the basic Cyrillic block and Ё/ё); all other
  characters are left unchanged.
* `float32` cell values are modelled by `FVal`: exact rationals for finite values
  plus explicit NaN and ±infinity produced by division by zero (IEEE semantics for
  the sign cases); rounding of finite results is abstracted away (exact arithmetic).
* Python exceptions (failed `assert`, `IndexError`, `KeyError`, `ValueError`) are
  modelled by `Except String`.
-/

namespace Golos

/-- Python `str.lower` restricted to the repertoire used by the program:
ASCII letters, the basic Cyrillic block U+0410–U+042F → U+0430–U+044F, and
Ѐ–Џ (U+0400–U+040F, which contains Ё) → U+0450–U+045F. Other characters are
returned unchanged. -/
def pyLowerChar (c : Char) : Char :=
  let n := c.toNat
  if 0x41 ≤ n && n ≤ 0x5A then Char.ofNat (n + 0x20)
  else if 0x410 ≤ n && n ≤ 0x42F then Char.ofNat (n + 0x20)
  else if 0x400 ≤ n && n ≤ 0x40F then Char.ofNat (n + 0x50)
  else c

def pyLower (s : List Char) : List Char := s.map pyLowerChar

/-- The whitespace characters removed by Python `str.strip` (ASCII part). -/
def isPySpace (c : Char) : Bool :=
  c = ' ' || c = '\t' || c = '\n' || c = '\x0d' || c = '\x0b' || c = '\x0c'

/-- Python `str.strip`. -/
def pyStrip (s : List Char) : List Char :=
  ((s.dropWhile isPySpace).reverse.dropWhile isPySpace).reverse

/-- Python substring test `needle in hay` (note `"" in s` is `True`). -/
def containsSub : List Char → List Char → Bool
  | needle, [] => needle.isEmpty
  | needle, c :: rest => needle.isPrefixOf (c :: rest) || containsSub needle rest

/-- Character class `[А-Яа-яЁё]` of `HUMAN_CANDIDATE_RE`:
U+0410–U+044F (А–Я and а–я) plus Ё (U+0401) and ё (U+0451). -/
def humanFirstCharSet (c : Char) : Bool :=
  (0x410 ≤ c.toNat && c.toNat ≤ 0x44F) || c.toNat = 0x401 || c.toNat = 0x451

/-- Character class `[a-яё-]` of `HUMAN_CANDIDATE_RE`. The source's range runs
from LATIN SMALL LETTER A (U+0061) to CYRILLIC SMALL LETTER YA (U+044F), so it
also contains Latin lowercase letters, various symbols and uppercase Cyrillic;
additionally ё (U+0451) and the literal hyphen. -/
def humanRestCharSet (c : Char) : Bool :=
  (0x61 ≤ c.toNat && c.toNat ≤ 0x44F) || c.toNat = 0x451 || c = '-'

/-- One token `[А-Яа-яЁё][a-яё-]+` of `HUMAN_CANDIDATE_RE`: a first-class
character followed by at least one rest-class character. -/
def humanToken : List Char → Bool
  | [] => false
  | c :: rest => humanFirstCharSet c && !rest.isEmpty && rest.all humanRestCharSet

/-- Split a character list at every `' '` (no collapsing: `"a  b"` yields an
empty middle piece, and `""` yields `[[]]`). -/
def splitSpaces : List Char → List (List Char)
  | [] => [[]]
  | c :: rest =>
    if c = ' ' then [] :: splitSpaces rest
    else
      match splitSpaces rest with
      | [] => [[c]]
      | t :: ts => (c :: t) :: ts

/-- Anchored match of `HUMAN_CANDIDATE_RE = ^([А-Яа-яЁё][a-яё-]+ ){,5}[А-Яа-яЁё][a-яё-]+$`.
Since the space separator belongs to neither character class, a string is in the
regex's language exactly when splitting it at spaces yields at most 6 pieces
(`{,5}` repetitions of `token ' '` plus the final token, hence 1–6 tokens; the
split is never empty) and every piece matches the token pattern (an empty piece,
from a leading/trailing/double space or the empty string, fails `humanToken`). -/
def HUMAN_CANDIDATE_RE_match (s : List Char) : Bool :=
  let toks := splitSpaces s
  toks.length ≤ 6 && toks.all humanToken

structure Candidate where
  id : String
  title : String
  alternative_titles : List String := []
  is_human : Bool := false
deriving DecidableEq, Repr, Inhabited

/-- `Candidate.is_this`: case-insensitive substring match of the title or any
alternative title inside `text`. -/
def Candidate.is_this (c : Candidate) (text : String) : Bool :=
  let lower_text := pyLower text.data
  (c.title :: c.alternative_titles).any fun t => containsSub (pyLower t.data) lower_text

def AVAILABLE_PARTIES : List Candidate := [
  { id := "SpravRos", title := "Справедливая Россия" },
  { id := "ER", title := "Единая Россия" },
  { id := "KPRF", title := "КПРФ", alternative_titles := ["Коммунистическая партия российской федерации"] },
  { id := "KomRos", title := "Коммунисты России" },
  { id := "Pens", title := "Партия пенсионеров" },
  { id := "Rodina", title := "Родина" },
  { id := "LDPR", title := "ЛДПР", alternative_titles := ["Либерально-демократическая партия россии"] },
  { id := "Yabloko", title := "Яблоко" },
  { id := "Zelenye", title := "Зелёные", alternative_titles := ["Зеленые"] },
  { id := "Kazaki", title := "Казачья" },
  { id := "Rosta", title := "Партия роста" },
  { id := "Patrioty", title := "Патриоты России" }
]

/-- The condition under which `parse_candidate_by_text` classifies a text as a
human candidate: the stripped text matches `HUMAN_CANDIDATE_RE` and does not
contain the substring "партия" case-insensitively. -/
def humanCond (candidate_text : String) : Bool :=
  let t := pyStrip candidate_text.data
  HUMAN_CANDIDATE_RE_match t && !containsSub (pyLower "партия".data) (pyLower t)

/-- `parse_candidate_by_text`: strip, try the human-name regex (with the
"партия" substring exclusion), otherwise scan the registry in order; an
unmatched text raises `ValueError`. -/
def parse_candidate_by_text (candidate_text : String) : Except String Candidate :=
  let t := String.mk (pyStrip candidate_text.data)
  if humanCond candidate_text then
    .ok { id := String.mk (t.data.map fun c => if c = ' ' then '_' else c),
          title := t, is_human := true }
  else
    match AVAILABLE_PARTIES.find? (fun p => p.is_this t) with
    | some p => .ok p
    | none => .error "Unknown candidate by text"

/-- Model of a `float32` cell value: exact rationals for finite values, plus the
non-finite values produced by division by zero. Rounding is abstracted (finite
arithmetic is exact). -/
inductive FVal where
  | nan : FVal
  | inf : FVal
  | neginf : FVal
  | fin (q : ℚ) : FVal
deriving DecidableEq, Repr

/-- IEEE-style division of finite values: `x / 0` is NaN when `x = 0` and
±infinity otherwise (sign of the numerator); exact rational division when the
denominator is nonzero. -/
def divF (a b : ℚ) : FVal :=
  if b = 0 then (if a = 0 then .nan else if 0 < a then .inf else .neginf)
  else .fin (a / b)

def FVal.isFiniteVal : FVal → Bool
  | .fin _ => true
  | _ => false

/-- Serialized form of a `Candidate` (`alternative_titles` is dropped). -/
structure CandidateDict where
  id : String
  title : String
  is_human : Bool
deriving DecidableEq, Repr

def Candidate.to_dict (c : Candidate) : CandidateDict :=
  { id := c.id, title := c.title, is_human := c.is_human }

def Candidate.from_dict (d : CandidateDict) : Candidate :=
  { id := d.id, title := d.title, is_human := d.is_human }

structure TikChildInfo where
  id : String
  url : String
  uiks : List String
deriving DecidableEq, Repr

/-- Serialized form of a `TikChildInfo` (all three keys). -/
structure TikChildInfoDict where
  id : String
  url : String
  uiks : List String
deriving DecidableEq, Repr

def TikChildInfo.to_dict (c : TikChildInfo) : TikChildInfoDict :=
  { id := c.id, url := c.url, uiks := c.uiks }

def TikChildInfo.from_dict (d : TikChildInfoDict) : TikChildInfo :=
  { id := d.id, url := d.url, uiks := d.uiks }

/-- A polling-station table. `data` is row-major in station order: row `j`
(station `uiks[j]`) holds the 12 static counters followed by, per candidate,
the count and the share column. -/
structure TikData where
  id : String
  candidates : List Candidate
  uiks : List String
  url : String
  data : List (List FVal)
  children_info : List TikChildInfo
deriving DecidableEq, Repr

def STATIC_ROWS : List String := [
  "total_izb",
  "ballots_recieved",
  "ballots_dosrok",
  "ballots_indoor",
  "ballots_outdoor",
  "ballots_unused",
  "ballots_mobile",
  "ballots_stationar",
  "ballots_not_valid",
  "ballots_valid",
  "ballots_lost",
  "ballots_extra"
]

/-- `TikData.is_human_candidates`: every candidate of the table is human
(`all` over the candidate list, so `true` for an empty candidate list). -/
def TikData.is_human_candidates (t : TikData) : Bool :=
  t.candidates.all (·.is_human)

/-- Python list equality on candidate lists: same length, elementwise
`Candidate.__eq__`, which compares by `id` only. -/
def candidateListEq : List Candidate → List Candidate → Bool
  | [], [] => true
  | a :: as, b :: bs => a.id == b.id && candidateListEq as bs
  | _, _ => false

/-- Cell access in a row-major matrix (out-of-range reads default). -/
def getCellF (m : List (List FVal)) (r c : Nat) : FVal :=
  (m.getD r []).getD c .nan

def getCellQ (m : List (List ℚ)) (r c : Nat) : ℚ :=
  (m.getD r []).getD c 0

/-- `TikData.from_raw_data`. `raw` has `12 + len(candidates)` rows (stations
are columns). The model checks the shape conditions under which the NumPy code
succeeds: the failed `assert` on the candidate-row count, and the rectangularity
with width `len(uiks)` that `np.array`/`np.zeros` assignment/`np.concatenate`/
the `DataFrame` index require (any violation raises). Row `ballots_not_valid`
is index 8 and `ballots_valid` index 9 of `STATIC_ROWS`. -/
def TikData.from_raw_data (id : String) (candidates : List Candidate)
    (uiks : List String) (url : String) (raw : List (List ℚ)) : Except String TikData :=
  let static_data := raw.take 12
  let candidates_data := raw.drop 12
  if candidates_data.length ≠ candidates.length then
    .error "assert candidates_data.shape[0] == len(candidates)"
  else if static_data.length ≠ 12 then
    .error "IndexError: static row access"
  else if !(raw.all fun row => row.length = uiks.length) then
    .error "ValueError: shape mismatch"
  else
    let valid_row := raw.getD 9 []
    let not_valid_row := raw.getD 8 []
    let num_ballots := List.zipWith (· + ·) valid_row not_valid_row
    let stationRow := fun (j : Nat) =>
      (static_data.map fun row => FVal.fin (row.getD j 0))
      ++ (candidates_data.flatMap fun row =>
            [FVal.fin (row.getD j 0), divF (row.getD j 0) (num_ballots.getD j 0)])
    .ok { id := id, candidates := candidates, uiks := uiks, url := url,
          data := (List.range uiks.length).map stationRow, children_info := [] }

/-- The per-child loop of `TikData.from_children`: check the three assertions
in source order for each child, accumulating provenance entries, uiks and data
rows in input order. -/
def fromChildrenLoop (candidates : List Candidate) :
    List TikData → Except String (List TikChildInfo × List String × List (List FVal))
  | [] => .ok ([], [], [])
  | child :: rest =>
    if child.children_info ≠ [] then .error "assert not child.children_info"
    else if child.is_human_candidates then .error "assert not child.is_human_candidates()"
    else if !candidateListEq child.candidates candidates then
      .error "assert child.candidates == candidates"
    else
      match fromChildrenLoop candidates rest with
      | .error e => .error e
      | .ok (infos, uiks, data) =>
        .ok (⟨child.id, child.url, child.uiks⟩ :: infos, child.uiks ++ uiks, child.data ++ data)

/-- `TikData.from_children`: merge all-party children by vertical concatenation.
`children[0]` on an empty list raises `IndexError`. -/
def TikData.from_children (id url : String) (children : List TikData) : Except String TikData :=
  match children with
  | [] => .error "IndexError: children[0]"
  | c0 :: _ =>
    match fromChildrenLoop c0.candidates children with
    | .error e => .error e
    | .ok (children_info, uiks, data) =>
      if data.length ≠ uiks.length then .error "assert len(data) == len(uiks)"
      else .ok { id := id, candidates := c0.candidates, uiks := uiks, url := url,
                 data := data, children_info := children_info }

/-- Serialized form of a `TikData` (all keys present, as produced by
`TikData.to_dict` and required by `TikData.from_dict`). -/
structure TikRecord where
  id : String
  candidates : List CandidateDict
  uiks : List String
  url : String
  data : List (List FVal)
  children_info : List TikChildInfoDict
deriving DecidableEq, Repr

def TikData.to_dict (t : TikData) : TikRecord :=
  { id := t.id, candidates := t.candidates.map Candidate.to_dict, uiks := t.uiks,
    url := t.url, data := t.data, children_info := t.children_info.map TikChildInfo.to_dict }

def TikData.from_dict (d : TikRecord) : TikData :=
  { id := d.id, candidates := d.candidates.map Candidate.from_dict, uiks := d.uiks,
    url := d.url, data := d.data, children_info := d.children_info.map TikChildInfo.from_dict }

structure RootHumanTikData where
  id : String
  url : String
  children : List TikData
deriving DecidableEq, Repr

/-- A root result tree: either a merged party table or a human-candidate group. -/
inductive RootTik where
  | table (t : TikData) : RootTik
  | human (h : RootHumanTikData) : RootTik
deriving DecidableEq, Repr

/-- The source's root-tik builder (named with underscores there): classify the
children as all-human or all-not-all-human, assert the two classifications
differ, then build the corresponding root. -/
def buildRootTik (tik_id url : String) (children : List TikData) : Except String RootTik :=
  let all_human := children.all (·.is_human_candidates)
  let no_human := children.all fun child => !child.is_human_candidates
  if all_human == no_human then .error "assert all_human != no_human"
  else if all_human then .ok (.human { id := tik_id, url := url, children := children })
  else (TikData.from_children tik_id url children).map .table

/-- A generic serialized tree record as seen by the loader: `id` and `url` are
always present, the remaining keys may be absent (`none`). A Root Human record
carries serialized `TikData` children. -/
structure TreeRecord where
  id : String
  url : String
  data : Option (List (List FVal))
  candidates : Option (List CandidateDict)
  uiks : Option (List String)
  children_info : Option (List TikChildInfoDict)
  children : Option (List TikRecord)
deriving DecidableEq, Repr

/-- `TikData.from_dict` applied to a generic record: every `TikData` key must
be present, otherwise Python raises `KeyError`. -/
def tikDataOfTreeRecord (d : TreeRecord) : Except String TikData :=
  match d.candidates, d.uiks, d.data, d.children_info with
  | some cs, some us, some da, some ci =>
    .ok (TikData.from_dict { id := d.id, candidates := cs, uiks := us, url := d.url,
                             data := da, children_info := ci })
  | _, _, _, _ => .error "KeyError"

/-- `RootHumanTikData.from_dict` applied to a generic record: the `children`
key must be present, otherwise Python raises `KeyError`. -/
def rootHumanOfTreeRecord (d : TreeRecord) : Except String RootHumanTikData :=
  match d.children with
  | some ch => .ok { id := d.id, url := d.url, children := ch.map TikData.from_dict }
  | none => .error "KeyError"

/-- The source's loader (named with underscores there): dispatch on the
presence of the `data` key. -/
def loadRootTikDataFromDict (d : TreeRecord) : Except String RootTik :=
  match d.data with
  | some _ => (tikDataOfTreeRecord d).map .table
  | none => (rootHumanOfTreeRecord d).map .human

structure MunicipalVotes where
  id : String
  tik_id : String
  town : String
  date : String
  url : String
  votes_data : List RootTik
deriving DecidableEq, Repr

/-- `MunicipalVotes.__init__`: `self.town = town or tik_id`, so a `None`
(modelled `none`) or empty-string town falls back to `tik_id`; every other
field is stored as given. -/
def MunicipalVotes.init (id : String) (town : Option String) (tik_id : String)
    (date : String) (url : String) (votes_data : List RootTik) : MunicipalVotes :=
  { id := id, tik_id := tik_id,
    town := match town with
            | none => tik_id
            | some t => if t = "" then tik_id else t,
    date := date, url := url, votes_data := votes_data }

/-- Whether an `Except` computation succeeded. -/
def isOkB {ε α : Type} : Except ε α → Bool
  | .ok _ => true
  | .error _ => false

/-- The table produced by a successful `Except` computation (default on error). -/
def getOkTik (e : Except String TikData) : TikData :=
  match e with
  | .ok t => t
  | .error _ => { id := "", candidates := [], uiks := [], url := "", data := [], children_info := [] }

/-- Sample registry party used by concrete witnesses. -/
def sampleParty : Candidate := { id := "ER", title := "Единая Россия" }

/-- Merge witnesses: three all-party children over the same candidate set with
uik lists of length 5, 3 and 7 (disjoint ids). -/
def mergeChild1 : TikData :=
  { id := "c1", candidates := [sampleParty], uiks := ["u1", "u2", "u3", "u4", "u5"],
    url := "", data := [[], [], [], [], []], children_info := [] }

def mergeChild2 : TikData :=
  { id := "c2", candidates := [sampleParty], uiks := ["u6", "u7", "u8"],
    url := "", data := [[], [], []], children_info := [] }

def mergeChild3 : TikData :=
  { id := "c3", candidates := [sampleParty],
    uiks := ["u9", "u10", "u11", "u12", "u13", "u14", "u15"],
    url := "", data := [[], [], [], [], [], [], []], children_info := [] }

/-- Raw matrix for one station with valid=80 (row 9), invalid=20 (row 8) and
one candidate with count 60 (row 12). -/
def sampleRaw : List (List ℚ) :=
  [[0], [0], [0], [0], [0], [0], [0], [0], [20], [80], [0], [0], [60]]

/-- Raw matrix for one station with zero valid and invalid ballots and one
candidate with count 60. -/
def sampleRawZero : List (List ℚ) :=
  [[0], [0], [0], [0], [0], [0], [0], [0], [0], [0], [0], [0], [60]]

/-- A generic tree record whose `data` key is present. -/
def sampleTreeRecord : TreeRecord :=
  { id := "r", url := "u", data := some [[FVal.fin 1]], candidates := some [],
    uiks := some ["u1"], children_info := some [], children := none }

/-! ## Helper lemmas -/

/-- `List.find?` returns the element at the least index satisfying the
predicate: everything strictly before it fails the predicate. -/
lemma find?_first_spec {α : Type} [Inhabited α] (p : α → Bool) :
    ∀ (l : List α) (x : α), x ∈ l → p x = true →
    ∃ i, i < l.length ∧ l.find? p = some (l.getD i default) ∧
      p (l.getD i default) = true ∧ ∀ j, j < i → p (l.getD j default) = false := by
  intro l
  induction l with
  | nil => intro x hx; cases hx
  | cons a as ih =>
    intro x hx hpx
    by_cases ha : p a = true
    · refine ⟨0, by simp, ?_, by simpa using ha, fun j hj => absurd hj (by omega)⟩
      simp [List.find?, ha]
    · have ha' : p a = false := by simpa using ha
      rcases List.mem_cons.mp hx with rfl | hx'
      · rw [hpx] at ha'; cases ha'
      · rcases ih x hx' hpx with ⟨i, hi, hfind, hp, hprev⟩
        refine ⟨i + 1, by simpa using Nat.succ_lt_succ hi, ?_, ?_, ?_⟩
        · simpa [List.find?, ha'] using hfind
        · simpa [List.getD_cons_succ] using hp
        · intro j hj
          cases j with
          | zero => simpa using ha'
          | succ j' => simpa [List.getD_cons_succ] using hprev j' (by omega)

/-! ## Claims -/

/-- C1 (amended): `parse_candidate_by_text` classifies `text` as a human
candidate exactly when the stripped text consists of 1 to 6 space-separated
tokens, each at least two characters long, starting with a Cyrillic letter
(А–Я, а–я, Ё or ё) with the remaining characters in the regex class
`[a-яё-]` (codepoints U+0061–U+044F, plus ё and hyphen), and the stripped text
does not contain "партия" case-insensitively (`humanCond`); in that case it
mints a Candidate whose id is the stripped text with spaces replaced by
underscores, whose title is the stripped text and whose `is_human` is true,
with no registry lookup; otherwise any successfully returned candidate comes
from the registry and is not human. -/
theorem parse_candidate_human_rule (text : String) :
    (humanCond text = true →
      parse_candidate_by_text text =
        .ok { id := String.mk ((pyStrip text.data).map fun c => if c = ' ' then '_' else c),
              title := String.mk (pyStrip text.data), alternative_titles := [],
              is_human := true }) ∧
    (humanCond text = false →
      ∀ c, parse_candidate_by_text text = .ok c → c.is_human = false) := by
  constructor
  · intro h
    simp [parse_candidate_by_text, h]
  · intro h c hc
    simp only [parse_candidate_by_text, h, Bool.false_eq_true, if_false] at hc
    cases hfind : AVAILABLE_PARTIES.find?
        (fun p => p.is_this (String.mk (pyStrip text.data))) with
    | none => rw [hfind] at hc; cases hc
    | some p =>
      rw [hfind] at hc
      cases hc
      have hmem := List.mem_of_find?_eq_some hfind
      have hall : AVAILABLE_PARTIES.all (fun q => !q.is_human) = true := by decide
      simpa using List.all_eq_true.mp hall _ hmem

/-- C1 witness: "Иванов Петр Сергеевич" is classified human with the expected
id and title, and "Партия роста" is not human and resolves to `Rosta`. -/
theorem parse_candidate_human_rule_witness :
    humanCond "Иванов Петр Сергеевич" = true ∧
    parse_candidate_by_text "Иванов Петр Сергеевич" =
      .ok { id := "Иванов_Петр_Сергеевич", title := "Иванов Петр Сергеевич",
            alternative_titles := [], is_human := true } ∧
    parse_candidate_by_text "Партия роста" =
      .ok { id := "Rosta", title := "Партия роста",
            alternative_titles := [], is_human := false } :=
  ⟨by decide,
   ((parse_candidate_human_rule "Иванов Петр Сергеевич").1 (by decide)).trans (by rfl),
   by rfl⟩

/-- C1 counterexample: the single token "Иванов" is classified as a human
candidate by the code, although the claimed pattern requires between 2 and 6
tokens (the regex `{,5}` repetition plus final token admits 1 to 6). -/
theorem parse_candidate_single_token_counterexample :
    parse_candidate_by_text "Иванов" =
      .ok { id := "Иванов", title := "Иванов", alternative_titles := [],
            is_human := true } ∧
    (splitSpaces (pyStrip "Иванов".data)).length = 1 :=
  ⟨by rfl, by rfl⟩

/-- C2: when a text is not classified human and matches more than one registry
party, `parse_candidate_by_text` returns the matching party appearing earliest
in `AVAILABLE_PARTIES` order: it returns the party at some index `i`, that
party matches, and no party at an index `j < i` matches. -/
theorem parse_candidate_registry_order (text : String)
    (hh : humanCond text = false)
    (hm : 2 ≤ (AVAILABLE_PARTIES.filter fun p =>
            p.is_this (String.mk (pyStrip text.data))).length) :
    ∃ i, i < AVAILABLE_PARTIES.length ∧
      parse_candidate_by_text text = .ok (AVAILABLE_PARTIES.getD i default) ∧
      (AVAILABLE_PARTIES.getD i default).is_this (String.mk (pyStrip text.data)) = true ∧
      ∀ j, j < i →
        (AVAILABLE_PARTIES.getD j default).is_this (String.mk (pyStrip text.data)) = false := by
  have hex : ∃ x ∈ AVAILABLE_PARTIES,
      (fun p => p.is_this (String.mk (pyStrip text.data))) x = true := by
    have hne : AVAILABLE_PARTIES.filter
        (fun p => p.is_this (String.mk (pyStrip text.data))) ≠ [] := by
      intro h0
      rw [h0] at hm
      simp at hm
    rcases List.exists_mem_of_ne_nil _ hne with ⟨x, hx⟩
    rcases List.mem_filter.mp hx with ⟨hmem, hp⟩
    exact ⟨x, hmem, hp⟩
  rcases hex with ⟨x, hxmem, hxp⟩
  rcases find?_first_spec (fun p => p.is_this (String.mk (pyStrip text.data)))
    AVAILABLE_PARTIES x hxmem hxp with ⟨i, hi, hfind, hp, hprev⟩
  refine ⟨i, hi, ?_, hp, hprev⟩
  simp [parse_candidate_by_text, hh, hfind]

/-- C2 witness: "Единая Россия и Справедливая Россия" is not classified human
and matches both `SpravRos` and `ER`; the parser returns the earliest match. -/
theorem parse_candidate_registry_order_witness :
    humanCond "Единая Россия и Справедливая Россия" = false ∧
    2 ≤ (AVAILABLE_PARTIES.filter fun p =>
          p.is_this (String.mk (pyStrip "Единая Россия и Справедливая Россия".data))).length ∧
    (∃ i, i < AVAILABLE_PARTIES.length ∧
      parse_candidate_by_text "Единая Россия и Справедливая Россия" =
        .ok (AVAILABLE_PARTIES.getD i default) ∧
      (AVAILABLE_PARTIES.getD i default).is_this
        (String.mk (pyStrip "Единая Россия и Справедливая Россия".data)) = true ∧
      ∀ j, j < i →
        (AVAILABLE_PARTIES.getD j default).is_this
          (String.mk (pyStrip "Единая Россия и Справедливая Россия".data)) = false) :=
  ⟨by decide, by decide,
   parse_candidate_registry_order "Единая Россия и Справедливая Россия" (by decide) (by decide)⟩

/-- C3 (amended): mixing a child whose candidates are all human with a child
whose candidate set is nonempty and contains no human candidates makes
`buildRootTik` fail on the exclusivity assertion and never return a result.
(A child with an empty candidate set counts as all-human for the code, which
is why the no-human child must be nonempty.) -/
theorem buildRootTikMixedError (tik_id url : String) (children : List TikData)
    (ha : ∃ a ∈ children, ∀ c ∈ a.candidates, c.is_human = true)
    (hb : ∃ b ∈ children, b.candidates ≠ [] ∧ ∀ c ∈ b.candidates, c.is_human = false) :
    buildRootTik tik_id url children = .error "assert all_human != no_human" := by
  rcases ha with ⟨a, hamem, haall⟩
  rcases hb with ⟨b, hbmem, hbne, hball⟩
  have hahuman : a.is_human_candidates = true :=
    List.all_eq_true.mpr haall
  have hbhuman : b.is_human_candidates = false := by
    rcases List.exists_mem_of_ne_nil _ hbne with ⟨c, hc⟩
    unfold TikData.is_human_candidates
    by_contra h
    have h' : b.candidates.all (fun c => c.is_human) = true := by
      revert h; cases b.candidates.all (fun c => c.is_human) <;> simp
    have := List.all_eq_true.mp h' c hc
    rw [hball c hc] at this
    cases this
  have hall : children.all (·.is_human_candidates) = false := by
    rw [List.all_eq_false]
    exact ⟨b, hbmem, by simp [hbhuman]⟩
  have hno : (children.all fun child => !child.is_human_candidates) = false := by
    rw [List.all_eq_false]
    exact ⟨a, hamem, by simp [hahuman]⟩
  simp [buildRootTik, hall, hno]

/-- C3 witness: one child with a (nonempty) all-human candidate list and one
child with a (nonempty) party-only candidate list make the aggregation fail. -/
theorem buildRootTikMixedErrorWitness :
    buildRootTik "root" "u"
      [{ id := "a", candidates := [{ id := "Иванов", title := "Иванов", is_human := true }],
         uiks := [], url := "", data := [], children_info := [] },
       { id := "b", candidates := [{ id := "ER", title := "Единая Россия" }],
         uiks := [], url := "", data := [], children_info := [] }] =
      .error "assert all_human != no_human" :=
  buildRootTikMixedError "root" "u" _ (by decide) (by decide)

/-- C3 counterexample: with a child whose candidate set is empty, the literal
claim fails: the first child is entirely human, the second (empty) child
contains no human candidates, yet `buildRootTik` succeeds and silently picks
the human branch, because an empty candidate list also counts as all-human. -/
theorem buildRootTikMixedCounterexample :
    (∀ c ∈ [({ id := "Иванов", title := "Иванов", is_human := true } : Candidate)],
       c.is_human = true) ∧
    (∀ c ∈ ([] : List Candidate), c.is_human = false) ∧
    buildRootTik "root" "u"
      [{ id := "a", candidates := [{ id := "Иванов", title := "Иванов", is_human := true }],
         uiks := [], url := "", data := [], children_info := [] },
       { id := "b", candidates := [], uiks := [], url := "", data := [], children_info := [] }] =
      .ok (.human
        { id := "root", url := "u",
          children :=
            [{ id := "a", candidates := [{ id := "Иванов", title := "Иванов", is_human := true }],
               uiks := [], url := "", data := [], children_info := [] },
             { id := "b", candidates := [], uiks := [], url := "", data := [],
               children_info := [] }] }) :=
  ⟨by decide, by decide, by rfl⟩

/-- Every child accepted by the `from_children` loop has empty `children_info`
and candidates equal (by id) to the reference candidate list. -/
lemma fromChildrenLoop_ok_checks (candidates : List Candidate) :
    ∀ (children : List TikData) out, fromChildrenLoop candidates children = .ok out →
    ∀ c ∈ children, c.children_info = [] ∧ candidateListEq c.candidates candidates = true := by
  intro children
  induction children with
  | nil => intro out _ c hc; cases hc
  | cons child rest ih =>
    intro out hok c hc
    unfold fromChildrenLoop at hok
    by_cases h1 : child.children_info = []
    · simp only [h1, ne_eq, not_true_eq_false, if_false] at hok
      split at hok
      · cases hok
      · by_cases h3 : candidateListEq child.candidates candidates = true
        · simp only [h3, Bool.not_true, Bool.false_eq_true, if_false] at hok
          rcases List.mem_cons.mp hc with rfl | hc'
          · exact ⟨h1, h3⟩
          · split at hok
            · cases hok
            · exact ih _ (by assumption) c hc'
        · simp only [Bool.not_eq_true] at h3
          simp [h3] at hok
    · simp [h1] at hok

/-- C5: the all-party merge fails whenever some child has nonempty
`children_info` or candidates differing (by id) from the first child's. -/
theorem from_children_precondition (id url : String) (c0 : TikData) (rest : List TikData)
    (hv : ∃ c ∈ c0 :: rest,
      c.children_info ≠ [] ∨ candidateListEq c.candidates c0.candidates = false) :
    isOkB (TikData.from_children id url (c0 :: rest)) = false := by
  rcases hv with ⟨c, hcmem, hcbad⟩
  cases hloop : fromChildrenLoop c0.candidates (c0 :: rest) with
  | error e => simp [TikData.from_children, hloop, isOkB]
  | ok out =>
    exfalso
    rcases fromChildrenLoop_ok_checks c0.candidates (c0 :: rest) out hloop c hcmem with ⟨h1, h2⟩
    rcases hcbad with hbad | hbad
    · exact hbad h1
    · rw [h2] at hbad; cases hbad

/-- C5 witness: a single child carrying a nonempty `children_info` (an already
aggregated tree) cannot be merged again. -/
theorem from_children_precondition_witness :
    isOkB (TikData.from_children "root" "u"
      [{ id := "a", candidates := [{ id := "ER", title := "Единая Россия" }],
         uiks := ["u1"], url := "", data := [[]],
         children_info := [{ id := "k", url := "ku", uiks := ["u1"] }] }]) = false :=
  from_children_precondition "root" "u" _ [] (by decide)

/-- A successful `from_children` loop produces the provenance entries, the
uiks and the data rows of the children concatenated in input order. -/
lemma fromChildrenLoop_ok_shape (candidates : List Candidate) :
    ∀ (children : List TikData) infos uiks data,
      fromChildrenLoop candidates children = .ok (infos, uiks, data) →
      infos = children.map (fun c => ⟨c.id, c.url, c.uiks⟩) ∧
      uiks = children.flatMap (·.uiks) ∧
      data = children.flatMap (·.data) := by
  intro children
  induction children with
  | nil =>
    intro infos uiks data hok
    cases hok
    simp
  | cons child rest ih =>
    intro infos uiks data hok
    unfold fromChildrenLoop at hok
    split at hok
    · cases hok
    split at hok
    · cases hok
    split at hok
    · cases hok
    cases hrec : fromChildrenLoop candidates rest with
    | error e => rw [hrec] at hok; cases hok
    | ok out =>
      obtain ⟨i2, u2, d2⟩ := out
      rw [hrec] at hok
      cases hok
      rcases ih i2 u2 d2 hrec with ⟨h1, h2, h3⟩
      subst h1 h2 h3
      simp [List.flatMap_cons]

/-- C4: a successful all-party merge over children with pairwise distinct uiks
and per-child row/uik alignment yields the children's uiks concatenated in
input order, a row count equal to the sum of the children's row counts, unique
uiks aligned one-to-one with the rows, and one provenance entry per child in
input order. -/
theorem from_children_concat (id url : String) (children : List TikData)
    (hok : isOkB (TikData.from_children id url children) = true)
    (hdis : (children.flatMap (·.uiks)).Nodup)
    (halign : ∀ c ∈ children, c.data.length = c.uiks.length) :
    (getOkTik (TikData.from_children id url children)).uiks = children.flatMap (·.uiks) ∧
    (getOkTik (TikData.from_children id url children)).data.length
      = (children.map fun c => c.uiks.length).sum ∧
    (getOkTik (TikData.from_children id url children)).uiks.Nodup ∧
    (getOkTik (TikData.from_children id url children)).uiks.length
      = (getOkTik (TikData.from_children id url children)).data.length ∧
    (getOkTik (TikData.from_children id url children)).children_info
      = children.map fun c => ⟨c.id, c.url, c.uiks⟩ := by
  cases children with
  | nil => simp [TikData.from_children, isOkB] at hok
  | cons c0 rest =>
    cases hloop : fromChildrenLoop c0.candidates (c0 :: rest) with
    | error e => simp [TikData.from_children, hloop, isOkB] at hok
    | ok out =>
      obtain ⟨infos, uiks, data⟩ := out
      rcases fromChildrenLoop_ok_shape c0.candidates (c0 :: rest) infos uiks data hloop
        with ⟨h1, h2, h3⟩
      by_cases hlen : data.length = uiks.length
      · have hres : TikData.from_children id url (c0 :: rest) =
            .ok { id := id, candidates := c0.candidates, uiks := uiks, url := url,
                  data := data, children_info := infos } := by
          simp [TikData.from_children, hloop, hlen]
        rw [hres]
        have hdata : data.length = ((c0 :: rest).map fun c => c.uiks.length).sum := by
          rw [h3, List.length_flatMap]
          congr 1
          exact List.map_congr_left fun c hc => halign c hc
        exact ⟨by simpa [getOkTik] using h2,
               by simpa [getOkTik] using hdata,
               by simpa [getOkTik, h2] using hdis,
               by simp [getOkTik, hlen],
               by simpa [getOkTik] using h1⟩
      · simp [TikData.from_children, hloop, hlen, isOkB] at hok

/-- C4 witness: merging party children with uik lists of length 5, 3 and 7
yields 15 rows, concatenated unique uiks and three provenance entries. -/
theorem from_children_concat_witness :
    (getOkTik (TikData.from_children "root" "u" [mergeChild1, mergeChild2, mergeChild3])).data.length = 15 ∧
    (getOkTik (TikData.from_children "root" "u" [mergeChild1, mergeChild2, mergeChild3])).uiks
      = ["u1", "u2", "u3", "u4", "u5", "u6", "u7", "u8", "u9", "u10", "u11", "u12", "u13", "u14", "u15"] ∧
    (getOkTik (TikData.from_children "root" "u" [mergeChild1, mergeChild2, mergeChild3])).uiks.Nodup ∧
    (getOkTik (TikData.from_children "root" "u" [mergeChild1, mergeChild2, mergeChild3])).children_info.length = 3 := by
  have h := from_children_concat "root" "u" [mergeChild1, mergeChild2, mergeChild3]
    (by decide) (by decide) (by decide)
  refine ⟨h.2.1.trans (by decide), h.1.trans (by decide), h.2.2.1, ?_⟩
  rw [h.2.2.2.2]
  rfl

lemma getD_zipWith_add (l1 l2 : List ℚ) (j : Nat) (h1 : j < l1.length) (h2 : j < l2.length) :
    (List.zipWith (· + ·) l1 l2).getD j 0 = l1.getD j 0 + l2.getD j 0 := by
  rw [List.getD_eq_getElem _ _ (by rw [List.length_zipWith]; omega),
      List.getD_eq_getElem _ _ h1, List.getD_eq_getElem _ _ h2]
  exact List.getElem_zipWith

/-- Reading the interleaved `[count, share]` pairs of a flatMap: position
`2*i` holds the first component and `2*i + 1` the second. -/
lemma flatMap_pair_getD {α β : Type} (f g : α → β) (d : β) (da : α) :
    ∀ (l : List α) (i : Nat), i < l.length →
      ((l.flatMap fun x => [f x, g x]).getD (2 * i) d = f (l.getD i da) ∧
       (l.flatMap fun x => [f x, g x]).getD (2 * i + 1) d = g (l.getD i da)) := by
  intro l
  induction l with
  | nil => intro i hi; exact absurd hi (Nat.not_lt_zero i)
  | cons x xs ih =>
    intro i hi
    cases i with
    | zero => simp [List.flatMap_cons]
    | succ i' =>
      have heq : 2 * (i' + 1) = 2 * i' + 1 + 1 := by ring
      have heq' : 2 * (i' + 1) + 1 = 2 * i' + 1 + 1 + 1 := by ring
      rcases ih i' (by simpa using Nat.lt_of_succ_lt_succ hi) with ⟨ha, hb⟩
      constructor
      · rw [heq]
        simp only [List.flatMap_cons, List.cons_append, List.singleton_append,
          List.getD_cons_succ]
        exact ha
      · rw [heq']
        simp only [List.flatMap_cons, List.cons_append, List.singleton_append,
          List.getD_cons_succ]
        exact hb

/-- Shape conditions under which `from_raw_data` succeeds. -/
lemma from_raw_data_ok_of_shape (id : String) (cands : List Candidate)
    (uiks : List String) (url : String) (raw : List (List ℚ))
    (hA : (raw.drop 12).length = cands.length)
    (hB : (raw.take 12).length = 12)
    (hC : raw.all (fun row => row.length = uiks.length) = true) :
    isOkB (TikData.from_raw_data id cands uiks url raw) = true := by
  simp [TikData.from_raw_data, hA, hB, hC, isOkB]

/-- The derived share cell of a successfully built table: station `j`, column
`12 + 2*i + 1` holds candidate `i`'s raw count divided by the sum of the
valid-ballots (row 9) and invalid-ballots (row 8) counters of station `j`. -/
lemma from_raw_data_share_cell (id : String) (cands : List Candidate)
    (uiks : List String) (url : String) (raw : List (List ℚ))
    (hok : isOkB (TikData.from_raw_data id cands uiks url raw) = true) :
    ∀ i j, i < cands.length → j < uiks.length →
      getCellF (getOkTik (TikData.from_raw_data id cands uiks url raw)).data j (12 + 2 * i + 1)
        = divF (getCellQ raw (12 + i) j) (getCellQ raw 9 j + getCellQ raw 8 j) := by
  intro i j hi hj
  have hA : (raw.drop 12).length = cands.length := by
    by_contra hA'
    simp only [TikData.from_raw_data] at hok
    rw [if_pos hA'] at hok
    simp [isOkB] at hok
  have hB : (raw.take 12).length = 12 := by
    by_contra hB'
    simp only [TikData.from_raw_data] at hok
    rw [if_neg (by simp [hA]), if_pos hB'] at hok
    simp [isOkB] at hok
  have hC : raw.all (fun row => row.length = uiks.length) = true := by
    by_contra hC'
    have hfalse : raw.all (fun row => row.length = uiks.length) = false := by
      revert hC'
      cases raw.all (fun row => row.length = uiks.length) <;> simp
    simp only [TikData.from_raw_data] at hok
    rw [if_neg (by simp [hA]), if_neg (by simp [hB]), if_pos (by simp [hfalse])] at hok
    simp [isOkB] at hok
  have hres : TikData.from_raw_data id cands uiks url raw =
      .ok { id := id, candidates := cands, uiks := uiks, url := url,
            data := (List.range uiks.length).map fun j =>
              ((raw.take 12).map fun row => FVal.fin (row.getD j 0))
              ++ ((raw.drop 12).flatMap fun row =>
                    [FVal.fin (row.getD j 0),
                     divF (row.getD j 0)
                       ((List.zipWith (· + ·) (raw.getD 9 []) (raw.getD 8 [])).getD j 0)]),
            children_info := [] } := by
    simp only [TikData.from_raw_data]
    rw [if_neg (by simp [hA]), if_neg (by simp [hB]), if_neg (by simp [hC])]
  rw [hres]
  have hraw12 : 12 ≤ raw.length := by
    rw [List.length_take] at hB
    omega
  have hrow : ∀ k, k < raw.length → (raw.getD k []).length = uiks.length := by
    intro k hk
    have hmem : raw.getD k [] ∈ raw := by
      rw [List.getD_eq_getElem _ _ hk]
      exact List.getElem_mem hk
    simpa using List.all_eq_true.mp hC _ hmem
  have hdata : getCellF
      ((List.range uiks.length).map fun j =>
        ((raw.take 12).map fun row => FVal.fin (row.getD j 0))
        ++ ((raw.drop 12).flatMap fun row =>
              [FVal.fin (row.getD j 0),
               divF (row.getD j 0)
                 ((List.zipWith (· + ·) (raw.getD 9 []) (raw.getD 8 [])).getD j 0)]))
      j (12 + 2 * i + 1)
      = divF (getCellQ raw (12 + i) j) (getCellQ raw 9 j + getCellQ raw 8 j) := by
    unfold getCellF
    have hjlen : j < ((List.range uiks.length).map fun j =>
        ((raw.take 12).map fun row => FVal.fin (row.getD j 0))
        ++ ((raw.drop 12).flatMap fun row =>
              [FVal.fin (row.getD j 0),
               divF (row.getD j 0)
                 ((List.zipWith (· + ·) (raw.getD 9 []) (raw.getD 8 [])).getD j 0)])).length := by
      simpa using hj
    rw [List.getD_eq_getElem _ _ hjlen, List.getElem_map, List.getElem_range]
    have hstatic : ((raw.take 12).map fun row => FVal.fin (row.getD j 0)).length = 12 := by
      simpa using hB
    rw [List.getD_append_right ((raw.take 12).map fun row => FVal.fin (row.getD j 0))
        ((raw.drop 12).flatMap fun row =>
          [FVal.fin (row.getD j 0),
           divF (row.getD j 0)
             ((List.zipWith (· + ·) (raw.getD 9 []) (raw.getD 8 [])).getD j 0)])
        FVal.nan (12 + 2 * i + 1) (by rw [hstatic]; omega)]
    have hsub : 12 + 2 * i + 1 - ((raw.take 12).map fun row => FVal.fin (row.getD j 0)).length
        = 2 * i + 1 := by
      rw [hstatic]
      omega
    rw [hsub]
    have hi' : i < (raw.drop 12).length := by omega
    rw [(flatMap_pair_getD (fun row => FVal.fin (row.getD j 0))
          (fun row =>
            divF (row.getD j 0)
              ((List.zipWith (· + ·) (raw.getD 9 []) (raw.getD 8 [])).getD j 0))
          FVal.nan [] (raw.drop 12) i hi').2]
    have hdrop : (raw.drop 12).getD i [] = raw.getD (12 + i) [] := by
      rw [List.getD_eq_getElem _ _ hi',
          List.getD_eq_getElem _ _ (show 12 + i < raw.length by
            have h' := hi'
            rw [List.length_drop] at h'
            omega)]
      exact List.getElem_drop raw
    have hzip : (List.zipWith (· + ·) (raw.getD 9 []) (raw.getD 8 [])).getD j 0
        = getCellQ raw 9 j + getCellQ raw 8 j := by
      have h9 : j < (raw.getD 9 []).length := by
        rw [hrow 9 (by omega)]
        exact hj
      have h8 : j < (raw.getD 8 []).length := by
        rw [hrow 8 (by omega)]
        exact hj
      exact getD_zipWith_add _ _ j h9 h8
    rw [hdrop, hzip]
    rfl
  simpa [getOkTik] using hdata

/-- A value divided by zero is never finite. -/
lemma divF_zero_not_finite (a : ℚ) : (divF a 0).isFiniteVal = false := by
  unfold divF
  by_cases h : a = 0
  · simp [h, FVal.isFiniteVal]
  · by_cases h2 : 0 < a <;> simp [h, h2, FVal.isFiniteVal]

/-- C6: for every station `j` and candidate `i` of a successfully built table,
the share column stored at construction time equals the candidate's raw count
divided by the sum of the valid-ballots and invalid-ballots counters of that
station. -/
theorem share_column_formula (id : String) (cands : List Candidate)
    (uiks : List String) (url : String) (raw : List (List ℚ))
    (hok : isOkB (TikData.from_raw_data id cands uiks url raw) = true)
    (i j : Nat) (hi : i < cands.length) (hj : j < uiks.length) :
    getCellF (getOkTik (TikData.from_raw_data id cands uiks url raw)).data j (12 + 2 * i + 1)
      = divF (getCellQ raw (12 + i) j) (getCellQ raw 9 j + getCellQ raw 8 j) :=
  from_raw_data_share_cell id cands uiks url raw hok i j hi hj

/-- C6 witness: one station with valid=80, invalid=20 and candidate count 60
gets a stored share of exactly 0.6. -/
theorem share_column_formula_witness :
    getCellF (getOkTik (TikData.from_raw_data "t" [sampleParty] ["u1"] "" sampleRaw)).data
      0 (12 + 2 * 0 + 1) = FVal.fin (0.6 : ℚ) := by
  have h := share_column_formula "t" [sampleParty] ["u1"] "" sampleRaw (by rfl) 0 0
    (by decide) (by decide)
  rw [h, show getCellQ sampleRaw (12 + 0) 0 = 60 from rfl,
      show getCellQ sampleRaw 9 0 = 80 from rfl,
      show getCellQ sampleRaw 8 0 = 20 from rfl]
  norm_num [divF]

/-- C7 (amended): on a well-shaped raw input where station `j` has zero total
ballots, `from_raw_data` still returns a table and that station's share value
for every candidate is a non-finite value (NaN when the raw count is zero,
±infinity otherwise), which propagates into the stored data rather than
causing an error. -/
theorem zero_ballots_share_not_finite (id : String) (cands : List Candidate)
    (uiks : List String) (url : String) (raw : List (List ℚ))
    (hA : (raw.drop 12).length = cands.length)
    (hB : (raw.take 12).length = 12)
    (hC : raw.all (fun row => row.length = uiks.length) = true)
    (j : Nat) (hj : j < uiks.length)
    (hzero : getCellQ raw 9 j + getCellQ raw 8 j = 0) :
    isOkB (TikData.from_raw_data id cands uiks url raw) = true ∧
    ∀ i, i < cands.length →
      (getCellF (getOkTik (TikData.from_raw_data id cands uiks url raw)).data
        j (12 + 2 * i + 1)).isFiniteVal = false := by
  have hok := from_raw_data_ok_of_shape id cands uiks url raw hA hB hC
  refine ⟨hok, fun i hi => ?_⟩
  rw [from_raw_data_share_cell id cands uiks url raw hok i j hi hj, hzero]
  exact divF_zero_not_finite _

/-- C7 witness: a station with zero valid and invalid ballots yields a table
whose share cell is non-finite. -/
theorem zero_ballots_share_not_finite_witness :
    isOkB (TikData.from_raw_data "t" [sampleParty] ["u1"] "" sampleRawZero) = true ∧
    (getCellF (getOkTik (TikData.from_raw_data "t" [sampleParty] ["u1"] "" sampleRawZero)).data
      0 (12 + 2 * 0 + 1)).isFiniteVal = false := by
  have h := zero_ballots_share_not_finite "t" [sampleParty] ["u1"] "" sampleRawZero
    (by rfl) (by rfl) (by rfl) 0 (by decide)
    (by rw [show getCellQ sampleRawZero 9 0 = 0 from rfl,
            show getCellQ sampleRawZero 8 0 = 0 from rfl]
        norm_num)
  exact ⟨h.1, h.2 0 (by decide)⟩

/-- C7 counterexample: with zero total ballots and a positive count 60, the
stored share is +infinity, not NaN, so the claim's "share value for every
candidate is NaN" fails (it holds only for zero counts). -/
theorem zero_ballots_nan_counterexample :
    getCellQ sampleRawZero 9 0 + getCellQ sampleRawZero 8 0 = 0 ∧
    isOkB (TikData.from_raw_data "t" [sampleParty] ["u1"] "" sampleRawZero) = true ∧
    getCellF (getOkTik (TikData.from_raw_data "t" [sampleParty] ["u1"] "" sampleRawZero)).data
      0 (12 + 2 * 0 + 1) = FVal.inf ∧
    FVal.inf ≠ FVal.nan := by
  have hz : getCellQ sampleRawZero 9 0 + getCellQ sampleRawZero 8 0 = 0 := by
    rw [show getCellQ sampleRawZero 9 0 = 0 from rfl,
        show getCellQ sampleRawZero 8 0 = 0 from rfl]
    norm_num
  have hok : isOkB (TikData.from_raw_data "t" [sampleParty] ["u1"] "" sampleRawZero) = true := rfl
  have hc := from_raw_data_share_cell "t" [sampleParty] ["u1"] "" sampleRawZero hok 0 0
    (by decide) (by decide)
  refine ⟨hz, hok, ?_, by decide⟩
  rw [hc, hz, show getCellQ sampleRawZero (12 + 0) 0 = 60 from rfl]
  norm_num [divF]

/-- C8: serializing a table with `to_dict` and decoding with `from_dict`
reproduces the id, the uiks, the data values unchanged, and the candidates up
to id, title and `is_human` (`alternative_titles` is intentionally dropped). -/
theorem to_dict_from_dict_round_trip (t : TikData) :
    (TikData.from_dict t.to_dict).id = t.id ∧
    (TikData.from_dict t.to_dict).uiks = t.uiks ∧
    (TikData.from_dict t.to_dict).data = t.data ∧
    ((TikData.from_dict t.to_dict).candidates.map fun c => (c.id, c.title, c.is_human))
      = t.candidates.map fun c => (c.id, c.title, c.is_human) := by
  refine ⟨rfl, rfl, rfl, ?_⟩
  have h : ∀ l : List Candidate,
      (((l.map Candidate.to_dict).map Candidate.from_dict).map
        fun c => (c.id, c.title, c.is_human))
        = l.map fun c => (c.id, c.title, c.is_human) := by
    intro l
    induction l with
    | nil => rfl
    | cons a as ih =>
      simp only [List.map_cons]
      rw [ih]
      rfl
  exact h t.candidates

/-- C9: the loader dispatches solely on the presence of the `data` key: when
present the record decodes as a polling-station table, when absent as a root
human tree, whatever the other fields are. -/
theorem load_dispatch_on_data_key (d : TreeRecord) :
    (d.data.isSome = true →
      loadRootTikDataFromDict d = (tikDataOfTreeRecord d).map RootTik.table) ∧
    (d.data.isSome = false →
      loadRootTikDataFromDict d = (rootHumanOfTreeRecord d).map RootTik.human) := by
  cases hd : d.data with
  | none =>
    refine ⟨fun h => ?_, fun _ => ?_⟩
    · simp at h
    · simp [loadRootTikDataFromDict, hd]
  | some v =>
    refine ⟨fun _ => ?_, fun h => ?_⟩
    · simp [loadRootTikDataFromDict, hd]
    · simp at h

/-- C9 witness: a record carrying a `data` key decodes through the
polling-station-table branch. -/
theorem load_dispatch_on_data_key_witness :
    loadRootTikDataFromDict sampleTreeRecord =
      (tikDataOfTreeRecord sampleTreeRecord).map RootTik.table :=
  (load_dispatch_on_data_key sampleTreeRecord).1 (by rfl)

/-- C10: the stored town falls back to `tik_id` when the given town is missing
(`none`) or empty, and is stored unchanged otherwise; all remaining constructor
arguments are stored as given. -/
theorem municipal_votes_town_default (id : String) (town : Option String)
    (tik_id date url : String) (vd : List RootTik) :
    ((town = none ∨ town = some "") →
      (MunicipalVotes.init id town tik_id date url vd).town = tik_id) ∧
    (∀ s, town = some s → s ≠ "" →
      (MunicipalVotes.init id town tik_id date url vd).town = s) ∧
    (MunicipalVotes.init id town tik_id date url vd).id = id ∧
    (MunicipalVotes.init id town tik_id date url vd).tik_id = tik_id ∧
    (MunicipalVotes.init id town tik_id date url vd).date = date ∧
    (MunicipalVotes.init id town tik_id date url vd).url = url ∧
    (MunicipalVotes.init id town tik_id date url vd).votes_data = vd := by
  refine ⟨?_, ?_, rfl, rfl, rfl, rfl, rfl⟩
  · rintro (rfl | rfl) <;> simp [MunicipalVotes.init]
  · rintro s rfl hs
    simp [MunicipalVotes.init, hs]

/-- C10 witness: `None` and the empty string fall back to the commission id,
a non-empty town is stored unchanged. -/
theorem municipal_votes_town_default_witness :
    (MunicipalVotes.init "v" none "tik1" "2019-09-08" "u" []).town = "tik1" ∧
    (MunicipalVotes.init "v" (some "") "tik1" "2019-09-08" "u" []).town = "tik1" ∧
    (MunicipalVotes.init "v" (some "Мирный") "tik1" "2019-09-08" "u" []).town = "Мирный" :=
  ⟨(municipal_votes_town_default "v" none "tik1" "2019-09-08" "u" []).1 (Or.inl rfl),
   (municipal_votes_town_default "v" (some "") "tik1" "2019-09-08" "u" []).1 (Or.inr rfl),
   (municipal_votes_town_default "v" (some "Мирный") "tik1" "2019-09-08" "u" []).2.1
     "Мирный" rfl (by decide)⟩

end Golos
